import Mathlib

/-!
Shallow embedding of the session-token lifecycle and registration /
password-reset flows of the node-express-TDD backend.

The persistent store is modelled as in-memory lists of rows (`DB`).
Timestamps are integers (milliseconds since the epoch, as produced by
`Date.now()` in the source).  Sequelize's `findOne` is `List.find?`
(first row in insertion order), and `instance.save()` after mutating the
found row is `updateFirst` (replace the first row matching the lookup
predicate).  Collaborator nondeterminism — the bcrypt hash output, the
bytes drawn by `crypto.randomBytes`, whether the email dispatcher or the
store fails — is passed in as explicit parameters.
-/

namespace NodeTdd

/-- A row of the `tokens` table: `{ token, userId, lastUsedAt }`
(`src/auth/Token.js` usage in TokenService). -/
structure TokenRow where
  token : String
  userId : Nat
  lastUsedAt : Int
  deriving Repr, DecidableEq

/-- A row of the `users` table (`src/user/User.js`): `inactive` has
Sequelize `defaultValue: true`; `activationToken` and
`passwordResetToken` are nullable strings. -/
structure User where
  id : Nat
  username : String
  email : String
  password : String
  activationToken : Option String
  passwordResetToken : Option String
  inactive : Bool
  deriving Repr, DecidableEq

/-- The persistent store: user rows and session-token rows. -/
structure DB where
  users : List User
  tokens : List TokenRow
  deriving Repr, DecidableEq

/-- Failure kinds surfaced by the embedded operations, following the
spec's taxonomy (EmailException, InvalidTokenEexception,
NotFoundException, the authentication failure on a missing or expired
token, and an injected store error). -/
inductive Failure where
  | authenticationFailure
  | invalidToken
  | tokenNotFound
  | emailFailure
  | notFound
  | storeError
  deriving Repr, DecidableEq

/-- `7 * 24 * 60 * 60 * 1000` milliseconds: the token time-to-live used by
`verify` and the cleanup task in TokenService. -/
def ONE_WEEK_IN_MS : Int := 7 * 24 * 60 * 60 * 1000

/-- `60 * 60 * 1000` milliseconds: the fixed `setInterval` period of
`scheduleCleanup` in TokenService. -/
def CLEANUP_INTERVAL_MS : Int := 60 * 60 * 1000

/-- Replace the first element satisfying `p` by its image under `f`
(Sequelize: mutate the row returned by `findOne`, then `save()`). -/
def updateFirst {α : Type} (p : α → Bool) (f : α → α) : List α → List α
  | [] => []
  | a :: as => if p a then f a :: as else a :: updateFirst p f as

/-- The lowercase hex character of one nibble, as produced by
`Buffer.toString('hex')`: the digits, then the first six letters. -/
def hexChar (n : Nat) : Char :=
  if n < 10 then Char.ofNat (48 + n) else Char.ofNat (87 + n)

/-- The two hex characters of one byte. -/
def byteToHexChars (b : Nat) : List Char :=
  [hexChar (b / 16 % 16), hexChar (b % 16)]

/-- `randomString` from `src/shared/generator.js`:
`crypto.randomBytes(length).toString('hex').substr(0, length)`.
The random bytes drawn are the explicit `bytes` argument. -/
def randomString (bytes : List Nat) (length : Nat) : String :=
  String.mk ((List.flatten (bytes.map byteToHexChars)).take length)

/-- The lookup predicate of `verify` in TokenService:
`{ token, lastUsedAt: { [Op.gt]: oneWeekAgo } }`. -/
def verifyPred (tok : String) (now : Int) (r : TokenRow) : Bool :=
  r.token == tok && decide (now - ONE_WEEK_IN_MS < r.lastUsedAt)

/-- `createToken` from TokenService: persist
`{ token, userId: user.id, lastUsedAt: new Date() }` and return the token.
The string produced by `randomString(32)` is the explicit `tok` argument. -/
def createToken (db : DB) (user : User) (tok : String) (now : Int) : DB × String :=
  ({ db with tokens := db.tokens ++ [{ token := tok, userId := user.id, lastUsedAt := now }] },
    tok)

/-- `verify` from TokenService: `findOne` the row with this token string and
`lastUsedAt` strictly newer than one week ago, set its `lastUsedAt` to `now`,
save, and return the owning user id.  When `findOne` yields `null` (row absent
or expired) the JS code throws on the null row; the thrown error is the
authentication failure of the spec's taxonomy. -/
def verify (db : DB) (tok : String) (now : Int) : DB × Except Failure Nat :=
  match db.tokens.find? (verifyPred tok now) with
  | none => (db, Except.error Failure.authenticationFailure)
  | some row =>
    ({ db with
        tokens := updateFirst (verifyPred tok now)
          (fun r => { r with lastUsedAt := now }) db.tokens },
      Except.ok row.userId)

/-- `deleteToken` from TokenService: `Token.destroy({ where: { token } })`. -/
def deleteToken (db : DB) (tok : String) : DB :=
  { db with tokens := db.tokens.filter (fun r => !(r.token == tok)) }

/-- One tick of the `setInterval` task started by `scheduleCleanup` in
TokenService: `Token.destroy({ where: { lastUsedAt: { [Op.lt]: oneWeekAgo } } })`.
A failure of the store call is injected as `storeError`; the callback body has
no try/catch, so the store's outcome is returned unchanged. -/
def cleanupTick (db : DB) (now : Int) (storeError : Option Failure) :
    DB × Except Failure Unit :=
  match storeError with
  | some e => (db, Except.error e)
  | none =>
    ({ db with
        tokens := db.tokens.filter (fun r => !decide (r.lastUsedAt < now - ONE_WEEK_IN_MS)) },
      Except.ok ())

/-- `clearTokens` from TokenService: `Token.destroy({ where: { userId } })`. -/
def clearTokens (db : DB) (userId : Nat) : DB :=
  { db with tokens := db.tokens.filter (fun r => !(r.userId == userId)) }

/-- `save` from UserService: hash the password (the bcrypt output is the
explicit `passwordHash` argument), build
`{ username, email, password: hash, activationToken: randomString(16) }`
(`inactive` takes its Sequelize default `true`, `id` the fresh `freshId`),
`User.create` it inside a transaction, send the activation email, and commit;
on any failure roll the transaction back and throw `EmailException`.
Whether the email dispatcher succeeds is the `emailOk` argument. -/
def save (db : DB) (username email passwordHash : String) (freshId : Nat)
    (secretBytes : List Nat) (emailOk : Bool) : DB × Except Failure Unit :=
  let user : User :=
    { id := freshId, username := username, email := email, password := passwordHash,
      activationToken := some (randomString secretBytes 16),
      passwordResetToken := none, inactive := true }
  if emailOk then
    ({ db with users := db.users ++ [user] }, Except.ok ())
  else
    (db, Except.error Failure.emailFailure)

/-- `findByEmail` from UserService: `User.findOne({ where: { email } })`. -/
def findByEmail (db : DB) (email : String) : Option User :=
  db.users.find? (fun u => u.email == email)

/-- `activate` from UserService: `findOne` by `activationToken`; throw
`InvalidTokenEexception` when absent; otherwise set `inactive = false`,
`activationToken = null` and save that row. -/
def activate (db : DB) (tok : String) : DB × Except Failure Unit :=
  match db.users.find? (fun u => u.activationToken == some tok) with
  | none => (db, Except.error Failure.invalidToken)
  | some _ =>
    ({ db with
        users := updateFirst (fun u => u.activationToken == some tok)
          (fun u => { u with inactive := false, activationToken := none }) db.users },
      Except.ok ())

/-- `passwordResetRequest` from UserService: find the user by email (throw
`NotFoundException` when absent), set `passwordResetToken = randomString(16)`,
`save()` the row, then try to send the reset email, mapping a dispatch failure
to `EmailException`.  The row update is persisted before the dispatch attempt,
so the failure outcome carries the already-updated store. -/
def passwordResetRequest (db : DB) (email : String) (secretBytes : List Nat)
    (emailOk : Bool) : DB × Except Failure Unit :=
  match findByEmail db email with
  | none => (db, Except.error Failure.notFound)
  | some _ =>
    let db' : DB :=
      { db with
          users := updateFirst (fun u => u.email == email)
            (fun u => { u with passwordResetToken := some (randomString secretBytes 16) })
            db.users }
    if emailOk then (db', Except.ok ()) else (db', Except.error Failure.emailFailure)

/-- `findByPasswordResetToken` from UserService:
`User.findOne({ where: { passwordResetToken } })`. -/
def findByPasswordResetToken (db : DB) (passwordResetToken : String) : Option User :=
  db.users.find? (fun u => u.passwordResetToken == some passwordResetToken)

/-- `updatePassword` from UserService: look the user up by
`passwordResetToken`, store the bcrypt hash of the new password (the hash
output is the explicit `passwordHash` argument), clear both secrets, set
`inactive = false`, save, then `TokenService.clearTokens(user.id)`.  The
source has no null check: with an unknown reset token the JS code throws on
the null user before any write, modelled as the token-not-found failure with
the store unchanged. -/
def updatePassword (db : DB) (passwordResetToken passwordHash : String) :
    DB × Except Failure Unit :=
  match findByPasswordResetToken db passwordResetToken with
  | none => (db, Except.error Failure.tokenNotFound)
  | some u =>
    let db' : DB :=
      { db with
          users := updateFirst (fun v => v.passwordResetToken == some passwordResetToken)
            (fun v =>
              { v with
                password := passwordHash
                passwordResetToken := none
                inactive := false
                activationToken := none }) db.users }
    (clearTokens db' u.id, Except.ok ())

/-- The exposed consume-reset flow (`PUT /api/1.0/user/password` in
UserRouter): `passwordResetTokenValidator` rejects an unknown reset token,
otherwise `UserService.updatePassword` runs. -/
def consumeReset (db : DB) (resetToken passwordHash : String) :
    DB × Except Failure Unit :=
  match findByPasswordResetToken db resetToken with
  | none => (db, Except.error Failure.tokenNotFound)
  | some _ => updatePassword db resetToken passwordHash

/-- The spec's User invariant: a user with `inactive = false` has
`activationToken = null`. -/
def UserInvariant (db : DB) : Prop :=
  ∀ u ∈ db.users, u.inactive = false → u.activationToken = none

instance (db : DB) : Decidable (UserInvariant db) := by
  unfold UserInvariant; infer_instance

/-! ### Helper lemmas about `find?`, `updateFirst`, `countP` and `randomString` -/

lemma find?_decomp {α : Type} (p : α → Bool) :
    ∀ (l : List α) (v : α), l.find? p = some v →
      ∃ l₁ l₂, l = l₁ ++ v :: l₂ ∧ ∀ w ∈ l₁, p w = false := by
  intro l
  induction l with
  | nil => intro v h; simp at h
  | cons a as ih =>
    intro v h
    cases hp : p a with
    | true =>
      rw [List.find?_cons, hp] at h
      obtain rfl : a = v := by injection h
      exact ⟨[], as, rfl, by simp⟩
    | false =>
      rw [List.find?_cons, hp] at h
      obtain ⟨l₁, l₂, rfl, hl₁⟩ := ih v h
      refine ⟨a :: l₁, l₂, rfl, ?_⟩
      intro w hw
      rcases List.mem_cons.1 hw with rfl | hw
      · exact hp
      · exact hl₁ w hw

lemma find?_append_cons {α : Type} (p : α → Bool) (v : α) (l₂ : List α) :
    ∀ l₁ : List α, (∀ w ∈ l₁, p w = false) → p v = true →
      (l₁ ++ v :: l₂).find? p = some v := by
  intro l₁
  induction l₁ with
  | nil => intro _ hv; simp [List.find?_cons, hv]
  | cons a as ih =>
    intro h hv
    have ha : p a = false := h a (List.mem_cons_self a as)
    rw [List.cons_append, List.find?_cons, ha]
    exact ih (fun w hw => h w (List.mem_cons_of_mem a hw)) hv

lemma updateFirst_append_cons {α : Type} (p : α → Bool) (f : α → α) (v : α) (l₂ : List α) :
    ∀ l₁ : List α, (∀ w ∈ l₁, p w = false) → p v = true →
      updateFirst p f (l₁ ++ v :: l₂) = l₁ ++ f v :: l₂ := by
  intro l₁
  induction l₁ with
  | nil => intro _ hv; simp [updateFirst, hv]
  | cons a as ih =>
    intro h hv
    have ha : p a = false := h a (List.mem_cons_self a as)
    simp only [List.cons_append, updateFirst, ha, if_false, Bool.false_eq_true]
    exact congrArg (fun t => a :: t) (ih (fun w hw => h w (List.mem_cons_of_mem a hw)) hv)

lemma mem_updateFirst {α : Type} (p : α → Bool) (f : α → α) :
    ∀ (l : List α) (w : α), w ∈ updateFirst p f l →
      w ∈ l ∨ ∃ v, v ∈ l ∧ p v = true ∧ w = f v := by
  intro l
  induction l with
  | nil => intro w hw; simp [updateFirst] at hw
  | cons a as ih =>
    intro w hw
    cases hp : p a with
    | true =>
      simp only [updateFirst, hp, if_true] at hw
      rcases List.mem_cons.1 hw with rfl | hw
      · exact Or.inr ⟨a, List.mem_cons_self a as, hp, rfl⟩
      · exact Or.inl (List.mem_cons_of_mem a hw)
    | false =>
      simp only [updateFirst, hp, if_false, Bool.false_eq_true] at hw
      rcases List.mem_cons.1 hw with rfl | hw
      · exact Or.inl (List.mem_cons_self w as)
      · rcases ih w hw with h | ⟨v, hv, hpv, rfl⟩
        · exact Or.inl (List.mem_cons_of_mem a h)
        · exact Or.inr ⟨v, List.mem_cons_of_mem a hv, hpv, rfl⟩

lemma countP_one_decomp {α : Type} (p : α → Bool) :
    ∀ l : List α, l.countP p = 1 →
      ∃ l₁ v l₂, l = l₁ ++ v :: l₂ ∧ p v = true ∧
        (∀ w ∈ l₁, p w = false) ∧ (∀ w ∈ l₂, p w = false) := by
  intro l
  induction l with
  | nil => intro h; simp at h
  | cons a as ih =>
    intro h
    rw [List.countP_cons] at h
    cases hp : p a with
    | true =>
      have has : as.countP p = 0 := by rw [hp] at h; simpa using h
      refine ⟨[], a, as, rfl, hp, by simp, ?_⟩
      intro w hw
      have := List.countP_eq_zero.1 has w hw
      simpa using this
    | false =>
      have has : as.countP p = 1 := by rw [hp] at h; simpa using h
      obtain ⟨l₁, v, l₂, rfl, hv, h₁, h₂⟩ := ih has
      refine ⟨a :: l₁, v, l₂, rfl, hv, ?_, h₂⟩
      intro w hw
      rcases List.mem_cons.1 hw with rfl | hw
      · exact hp
      · exact h₁ w hw

lemma length_flatten_hex : ∀ bytes : List Nat,
    (List.flatten (bytes.map byteToHexChars)).length = 2 * bytes.length := by
  intro bytes
  induction bytes with
  | nil => rfl
  | cons b bs ih =>
    simp only [List.map_cons, List.flatten_cons, List.length_append, ih,
      byteToHexChars, List.length_cons, List.length_nil]
    omega

lemma randomString_length (bytes : List Nat) (n : Nat) (h : n ≤ 2 * bytes.length) :
    (randomString bytes n).length = n := by
  have h2 : (randomString bytes n).length
      = ((List.flatten (bytes.map byteToHexChars)).take n).length := rfl
  rw [h2, List.length_take, length_flatten_hex]
  omega

lemma randomString_ne_empty (bytes : List Nat) (n : Nat) (hn : 0 < n)
    (h : n ≤ 2 * bytes.length) : randomString bytes n ≠ "" := by
  intro he
  have hlen := randomString_length bytes n h
  rw [he] at hlen
  have h0 : ("" : String).length = 0 := rfl
  omega

lemma beq_false_of_ne {α : Type} [BEq α] [LawfulBEq α] {a b : α} (h : a ≠ b) :
    (a == b) = false := by
  cases hab : a == b
  · rfl
  · exact absurd (eq_of_beq hab) h

lemma passwordResetRequest_users_of_found (d : DB) (email : String) (b : List Nat)
    (w : User) (hw : findByEmail d email = some w) :
    (passwordResetRequest d email b true).1.users
      = updateFirst (fun v => v.email == email)
          (fun v => { v with passwordResetToken := some (randomString b 16) })
          d.users := by
  simp [passwordResetRequest, hw]

lemma activate_eq_error_of_none (db : DB) (tok : String)
    (h : db.users.find? (fun v => v.activationToken == some tok) = none) :
    activate db tok = (db, Except.error Failure.invalidToken) := by
  simp [activate, h]

lemma invariant_updateFirst (p : User → Bool) (f : User → User) (l : List User)
    (hl : ∀ u ∈ l, u.inactive = false → u.activationToken = none)
    (hf : ∀ v, (f v).inactive = false → (f v).activationToken = none) :
    ∀ u ∈ updateFirst p f l, u.inactive = false → u.activationToken = none := by
  intro u hu
  rcases mem_updateFirst p f l u hu with h | ⟨v, _, _, rfl⟩
  · exact hl u h
  · exact hf v

/-! ### Claim theorems -/

/-- C1, counterexample: a token row aged exactly the 7-day TTL
(`lastUsedAt = 0`, `now = ONE_WEEK_IN_MS`) is in the store and its age is
not strictly greater than the TTL, so the claim predicts a successful
verification returning the owner id — but `verify` (whose Sequelize
condition is `lastUsedAt Op.gt oneWeekAgo`, a strict comparison) rejects
it with the authentication failure. -/
theorem verify_ttl_boundary_counterexample :
    (verify ⟨[], [⟨"t", 1, 0⟩]⟩ "t" ONE_WEEK_IN_MS).2
        = Except.error Failure.authenticationFailure
    ∧ (⟨"t", 1, 0⟩ : TokenRow) ∈ (DB.mk [] [⟨"t", 1, 0⟩]).tokens
    ∧ ¬ (ONE_WEEK_IN_MS - (0 : Int) > ONE_WEEK_IN_MS) := by
  refine ⟨rfl, by decide, by decide⟩

/-- C1 (amended): `verify(s)` fails with the authentication failure if no
token row with `token = s` exists or if `now - lastUsedAt ≥ TTL` (the code
also rejects the row aged exactly TTL, which the original `> TTL` wording
admitted); otherwise — on the unique row with that token string, whose age
is strictly below the TTL — it sets the row's `lastUsedAt` to `now` (hence
`≥` the verification time) and returns the owning user's id. -/
theorem verify_spec (db : DB) (tok : String) (now : Int) :
    ((∀ r ∈ db.tokens, r.token = tok → ONE_WEEK_IN_MS ≤ now - r.lastUsedAt) →
        verify db tok now = (db, Except.error Failure.authenticationFailure))
    ∧ (∀ row ∈ db.tokens, row.token = tok → now - row.lastUsedAt < ONE_WEEK_IN_MS →
        (∀ r ∈ db.tokens, r.token = tok → r = row) →
        (verify db tok now).2 = Except.ok row.userId
          ∧ { row with lastUsedAt := now } ∈ (verify db tok now).1.tokens) := by
  constructor
  · intro hall
    have hnone : db.tokens.find? (verifyPred tok now) = none := by
      rw [List.find?_eq_none]
      intro x hx
      simp only [verifyPred, Bool.and_eq_true, beq_iff_eq, decide_eq_true_eq, not_and]
      intro hxt
      have := hall x hx hxt
      omega
    simp [verify, hnone]
  · intro row hrow htok hlive huniq
    have hpred : verifyPred tok now row = true := by
      simp only [verifyPred, Bool.and_eq_true, beq_iff_eq, decide_eq_true_eq]
      exact ⟨htok, by omega⟩
    have hisSome : (db.tokens.find? (verifyPred tok now)).isSome := by
      rw [List.find?_isSome]
      exact ⟨row, hrow, hpred⟩
    obtain ⟨v, hv⟩ := Option.isSome_iff_exists.1 hisSome
    have hvmem : v ∈ db.tokens := List.mem_of_find?_eq_some hv
    have hvp : verifyPred tok now v = true := List.find?_some hv
    have hvtok : v.token = tok := by
      simp only [verifyPred, Bool.and_eq_true, beq_iff_eq] at hvp
      exact hvp.1
    obtain rfl : v = row := huniq v hvmem hvtok
    refine ⟨by simp [verify, hv], ?_⟩
    obtain ⟨l₁, l₂, hsplit, hl₁⟩ := find?_decomp _ _ _ hv
    have hupd : updateFirst (verifyPred tok now)
        (fun r => { r with lastUsedAt := now }) db.tokens
        = l₁ ++ { v with lastUsedAt := now } :: l₂ := by
      rw [hsplit]
      exact updateFirst_append_cons _ _ _ _ _ hl₁ hpred
    have htokens : (verify db tok now).1.tokens
        = l₁ ++ { v with lastUsedAt := now } :: l₂ := by
      simp [verify, hv, hupd]
    rw [htokens]
    exact List.mem_append_right _ (List.mem_cons_self _ _)

/-- C1 witness: a one-day-old token is verified successfully and yields the
owner's id. -/
theorem verify_spec_witness :
    (verify ⟨[], [⟨"t", 7, 10⟩]⟩ "t" 11).2 = Except.ok 7 := by
  have h := (verify_spec ⟨[], [⟨"t", 7, 10⟩]⟩ "t" 11).2 ⟨"t", 7, 10⟩
      (by decide) rfl (by decide) (by decide)
  exact h.1

/-- C2: `save` with a succeeding email dispatcher persists exactly one new
User row for the attempt, created inactive with a non-empty activation
secret; with a failing dispatcher it rolls the transaction back — zero User
rows persist — and fails with the email-dispatch failure. -/
theorem save_spec (db : DB) (username email passwordHash : String) (freshId : Nat)
    (secretBytes : List Nat) (hbytes : secretBytes.length = 16) :
    (∃ u : User,
        (save db username email passwordHash freshId secretBytes true).1.users
            = db.users ++ [u]
        ∧ u.inactive = true
        ∧ ∃ s, u.activationToken = some s ∧ s ≠ "")
    ∧ (save db username email passwordHash freshId secretBytes true).2 = Except.ok ()
    ∧ (save db username email passwordHash freshId secretBytes false)
        = (db, Except.error Failure.emailFailure) := by
  refine ⟨⟨User.mk freshId username email passwordHash
      (some (randomString secretBytes 16)) none true, rfl, rfl,
      randomString secretBytes 16, rfl,
      randomString_ne_empty secretBytes 16 (by decide) (by omega)⟩, rfl, rfl⟩

/-- C2 witness: with a failing dispatcher nothing persists; the failure is
the email-dispatch failure. -/
theorem save_spec_witness :
    save ⟨[], []⟩ "user1" "user1@mail.com" "hash" 1 (List.replicate 16 0) false
        = (⟨[], []⟩, Except.error Failure.emailFailure) :=
  (save_spec ⟨[], []⟩ "user1" "user1@mail.com" "hash" 1 (List.replicate 16 0)
    (by decide)).2.2

/-- C4, counterexample: a store error raised while the sweep tick runs is
returned out of the tick unchanged — the `setInterval` callback in
`scheduleCleanup` has no try/catch — contradicting the claim that sweep
store errors are caught and ignored inside the task. -/
theorem cleanupTick_error_counterexample :
    (cleanupTick ⟨[], []⟩ 0 (some Failure.storeError)).2
        = Except.error Failure.storeError := rfl

/-- C4 (amended): an error-free tick of the background sweep deletes exactly
the token rows whose `lastUsedAt` is strictly older than the 7-day TTL, and
the interval is the fixed hour; but a store error raised during a tick is
not caught inside the sweep task — the tick propagates it unchanged (the
store itself is left untouched by the failed call). -/
theorem cleanupTick_spec (db : DB) (now : Int) :
    (∀ r : TokenRow, r ∈ (cleanupTick db now none).1.tokens ↔
        (r ∈ db.tokens ∧ now - r.lastUsedAt ≤ ONE_WEEK_IN_MS))
    ∧ (cleanupTick db now none).2 = Except.ok ()
    ∧ (∀ e : Failure, cleanupTick db now (some e) = (db, Except.error e))
    ∧ CLEANUP_INTERVAL_MS = 60 * 60 * 1000 := by
  refine ⟨?_, rfl, fun e => rfl, rfl⟩
  intro r
  have h1 : (cleanupTick db now none).1.tokens
      = db.tokens.filter (fun r => !decide (r.lastUsedAt < now - ONE_WEEK_IN_MS)) := rfl
  rw [h1, List.mem_filter]
  constructor
  · rintro ⟨hm, h⟩
    refine ⟨hm, ?_⟩
    simp only [Bool.not_eq_true', decide_eq_false_iff_not] at h
    omega
  · rintro ⟨hm, h⟩
    refine ⟨hm, ?_⟩
    simp only [Bool.not_eq_true', decide_eq_false_iff_not]
    omega

/-- C4 witness: a tick with an injected store error returns the error and
leaves the store untouched. -/
theorem cleanupTick_spec_witness :
    cleanupTick ⟨[], [⟨"a", 1, 0⟩]⟩ 5 (some Failure.storeError)
        = (⟨[], [⟨"a", 1, 0⟩]⟩, Except.error Failure.storeError) :=
  (cleanupTick_spec ⟨[], [⟨"a", 1, 0⟩]⟩ 5).2.2.1 Failure.storeError

/-- C6: consuming a reset token held by no user fails with the
token-not-found failure and leaves every user row and every session-token
row unchanged (the service-level `updatePassword` likewise fails before any
write). -/
theorem consumeReset_unknown_spec (db : DB) (rt newHash : String)
    (h : ∀ v ∈ db.users, v.passwordResetToken ≠ some rt) :
    consumeReset db rt newHash = (db, Except.error Failure.tokenNotFound)
    ∧ updatePassword db rt newHash = (db, Except.error Failure.tokenNotFound) := by
  have hnone : findByPasswordResetToken db rt = none := by
    rw [findByPasswordResetToken, List.find?_eq_none]
    intro v hv
    simp only [beq_iff_eq]
    exact h v hv
  exact ⟨by simp [consumeReset, hnone], by simp [updatePassword, hnone]⟩

/-- C6 witness: an unknown reset token is rejected and the store — one user,
one session token — is untouched. -/
theorem consumeReset_unknown_witness :
    consumeReset ⟨[⟨1, "u", "e", "p", none, none, false⟩], [⟨"tk", 1, 0⟩]⟩ "abcd" "h"
        = (⟨[⟨1, "u", "e", "p", none, none, false⟩], [⟨"tk", 1, 0⟩]⟩,
            Except.error Failure.tokenNotFound) :=
  (consumeReset_unknown_spec _ "abcd" "h" (by decide)).1

/-- C5: for a known email, the freshly generated reset secret is persisted
before the dispatch attempt — the store after a failed dispatch equals the
store after a successful one, and it holds the secret on the user's row —
while the failure surfaces as the email-dispatch failure, with no rollback. -/
theorem passwordResetRequest_failure_spec (db : DB) (email : String)
    (secretBytes : List Nat) (u : User) (hu : findByEmail db email = some u) :
    (passwordResetRequest db email secretBytes false).1
        = (passwordResetRequest db email secretBytes true).1
    ∧ (passwordResetRequest db email secretBytes false).2
        = Except.error Failure.emailFailure
    ∧ ∃ v ∈ (passwordResetRequest db email secretBytes false).1.users,
        v.id = u.id ∧ v.passwordResetToken = some (randomString secretBytes 16) := by
  have hu' : db.users.find? (fun v => v.email == email) = some u := hu
  have hpu0 := List.find?_some hu'
  have hpu : (u.email == email) = true := hpu0
  obtain ⟨l₁, l₂, hsplit, hl₁⟩ := find?_decomp _ _ _ hu'
  have hupd : updateFirst (fun v => v.email == email)
      (fun v => { v with passwordResetToken := some (randomString secretBytes 16) })
      db.users
      = l₁ ++ ({ u with passwordResetToken := some (randomString secretBytes 16) }) :: l₂ := by
    rw [hsplit]
    exact updateFirst_append_cons _ _ _ _ _ hl₁ hpu
  refine ⟨by simp [passwordResetRequest, hu], by simp [passwordResetRequest, hu], ?_⟩
  refine ⟨{ u with passwordResetToken := some (randomString secretBytes 16) }, ?_, rfl, rfl⟩
  have husers : (passwordResetRequest db email secretBytes false).1.users
      = l₁ ++ ({ u with passwordResetToken := some (randomString secretBytes 16) }) :: l₂ := by
    simp [passwordResetRequest, hu, hupd]
  rw [husers]
  exact List.mem_append_right _ (List.mem_cons_self _ _)

/-- C5 witness: for a known email with a failing dispatcher, the request
fails with the email-dispatch failure yet the persisted store equals the
success-case store. -/
theorem passwordResetRequest_failure_witness :
    (passwordResetRequest ⟨[⟨1, "u", "e@m", "p", none, none, false⟩], []⟩ "e@m"
        (List.replicate 16 0) false).2 = Except.error Failure.emailFailure :=
  (passwordResetRequest_failure_spec ⟨[⟨1, "u", "e@m", "p", none, none, false⟩], []⟩
    "e@m" (List.replicate 16 0) ⟨1, "u", "e@m", "p", none, none, false⟩ (by decide)).2.1

/-- C7: `activate` on a secret held by no user leaves the store unmodified
and fails with the invalid-token failure; on a secret held by exactly one
user row it clears that row's activation token and sets `inactive = false`
in one write (all other rows untouched), and a repeated call with the
now-cleared secret fails with the invalid-token failure. -/
theorem activate_spec (db : DB) (tok : String) :
    ((∀ v ∈ db.users, v.activationToken ≠ some tok) →
        activate db tok = (db, Except.error Failure.invalidToken))
    ∧ (db.users.countP (fun v => v.activationToken == some tok) = 1 →
        ∃ u l₁ l₂, db.users = l₁ ++ u :: l₂ ∧ u.activationToken = some tok
          ∧ (activate db tok).1.users
              = l₁ ++ ({ u with inactive := false, activationToken := none }) :: l₂
          ∧ (activate db tok).1.tokens = db.tokens
          ∧ (activate db tok).2 = Except.ok ()
          ∧ activate (activate db tok).1 tok
              = ((activate db tok).1, Except.error Failure.invalidToken)) := by
  constructor
  · intro hall
    have hnone : db.users.find? (fun v => v.activationToken == some tok) = none := by
      rw [List.find?_eq_none]
      intro v hv
      simp only [beq_iff_eq]
      exact hall v hv
    simp [activate, hnone]
  · intro hone
    obtain ⟨l₁, u, l₂, hsplit, hpu, h₁, h₂⟩ := countP_one_decomp _ _ hone
    have hfind : db.users.find? (fun v => v.activationToken == some tok) = some u := by
      rw [hsplit]
      exact find?_append_cons _ _ _ _ h₁ hpu
    have hupd : updateFirst (fun v => v.activationToken == some tok)
        (fun v => { v with inactive := false, activationToken := none }) db.users
        = l₁ ++ ({ u with inactive := false, activationToken := none }) :: l₂ := by
      rw [hsplit]
      exact updateFirst_append_cons _ _ _ _ _ h₁ hpu
    have hutok : u.activationToken = some tok := by simpa using hpu
    have husers : (activate db tok).1.users
        = l₁ ++ ({ u with inactive := false, activationToken := none }) :: l₂ := by
      simp [activate, hfind, hupd]
    have hnone2 : ((activate db tok).1.users).find?
        (fun v => v.activationToken == some tok) = none := by
      rw [husers, List.find?_eq_none]
      intro v hv
      rcases List.mem_append.1 hv with hv | hv
      · simp only [beq_iff_eq]
        simpa using h₁ v hv
      · rcases List.mem_cons.1 hv with rfl | hv
        · simp
        · simp only [beq_iff_eq]
          simpa using h₂ v hv
    refine ⟨u, l₁, l₂, hsplit, hutok, husers, by simp [activate, hfind],
      by simp [activate, hfind], ?_⟩
    exact activate_eq_error_of_none _ tok hnone2

/-- C7 witness: activating a held secret succeeds and clears it; activating
an unknown secret is rejected with the store unchanged. -/
theorem activate_spec_witness :
    (activate ⟨[⟨1, "u", "e", "p", some "act", none, true⟩], []⟩ "act").2 = Except.ok ()
    ∧ activate ⟨[⟨1, "u", "e", "p", none, none, true⟩], []⟩ "act"
        = (⟨[⟨1, "u", "e", "p", none, none, true⟩], []⟩,
            Except.error Failure.invalidToken) := by
  constructor
  · obtain ⟨u, l₁, l₂, -, -, -, -, h, -⟩ :=
      (activate_spec ⟨[⟨1, "u", "e", "p", some "act", none, true⟩], []⟩ "act").2
        (by decide)
    exact h
  · exact (activate_spec ⟨[⟨1, "u", "e", "p", none, none, true⟩], []⟩ "act").1
      (by decide)

/-- C3: consuming a valid reset secret — held by exactly the user `u` —
stores the freshly hashed password (changing the stored hash), clears both
secrets, sets `inactive = false`, deletes every session-token row of `u`,
and `verify` subsequently fails on every token string whose rows all
belonged to `u`. -/
theorem consumeReset_valid_spec (db : DB) (rt newHash : String) (u : User)
    (hmem : u ∈ db.users) (hrt : u.passwordResetToken = some rt)
    (huniq : ∀ v ∈ db.users, v.passwordResetToken = some rt → v = u)
    (hnew : newHash ≠ u.password) :
    (consumeReset db rt newHash).2 = Except.ok ()
    ∧ (∃ v ∈ (consumeReset db rt newHash).1.users,
        v.id = u.id ∧ v.password = newHash ∧ v.password ≠ u.password
        ∧ v.passwordResetToken = none ∧ v.activationToken = none ∧ v.inactive = false)
    ∧ (∀ r ∈ (consumeReset db rt newHash).1.tokens, r.userId ≠ u.id)
    ∧ (∀ tokStr : String, ∀ now : Int,
        (∀ r ∈ db.tokens, r.token = tokStr → r.userId = u.id) →
        (verify (consumeReset db rt newHash).1 tokStr now).2
            = Except.error Failure.authenticationFailure) := by
  have hpredu : (u.passwordResetToken == some rt) = true := by simp [hrt]
  have hisSome : (db.users.find? (fun v => v.passwordResetToken == some rt)).isSome := by
    rw [List.find?_isSome]
    exact ⟨u, hmem, hpredu⟩
  obtain ⟨v₀, hv₀⟩ := Option.isSome_iff_exists.1 hisSome
  have hv₀mem : v₀ ∈ db.users := List.mem_of_find?_eq_some hv₀
  have hv₀p := List.find?_some hv₀
  have hv₀rt : v₀.passwordResetToken = some rt := by simpa using hv₀p
  obtain rfl : u = v₀ := (huniq v₀ hv₀mem hv₀rt).symm
  have hfind2 : findByPasswordResetToken db rt = some u := hv₀
  obtain ⟨l₁, l₂, hsplit, hl₁⟩ := find?_decomp _ _ _ hv₀
  have hupd : updateFirst (fun v => v.passwordResetToken == some rt)
      (fun v =>
        { v with
          password := newHash
          passwordResetToken := none
          inactive := false
          activationToken := none }) db.users
      = l₁ ++ ({ u with
          password := newHash
          passwordResetToken := none
          inactive := false
          activationToken := none }) :: l₂ := by
    rw [hsplit]
    exact updateFirst_append_cons _ _ _ _ _ hl₁ hpredu
  have hok : (consumeReset db rt newHash).2 = Except.ok () := by
    simp [consumeReset, updatePassword, hfind2]
  have husers : (consumeReset db rt newHash).1.users
      = l₁ ++ ({ u with
          password := newHash
          passwordResetToken := none
          inactive := false
          activationToken := none }) :: l₂ := by
    simp [consumeReset, updatePassword, clearTokens, hfind2, hupd]
  have htokens : (consumeReset db rt newHash).1.tokens
      = db.tokens.filter (fun r => !(r.userId == u.id)) := by
    simp [consumeReset, updatePassword, clearTokens, hfind2]
  refine ⟨hok, ?_, ?_, ?_⟩
  · refine ⟨{ u with
        password := newHash
        passwordResetToken := none
        inactive := false
        activationToken := none }, ?_, rfl, rfl, hnew, rfl, rfl, rfl⟩
    rw [husers]
    exact List.mem_append_right _ (List.mem_cons_self _ _)
  · intro r hr
    rw [htokens] at hr
    have := (List.mem_filter.1 hr).2
    simpa using this
  · intro tokStr now hall
    have hfnone : ((consumeReset db rt newHash).1.tokens).find? (verifyPred tokStr now)
        = none := by
      rw [htokens, List.find?_eq_none]
      intro r hr
      rcases List.mem_filter.1 hr with ⟨hrmem, hrid⟩
      intro hp
      have hrtok : r.token = tokStr := by
        simp only [verifyPred, Bool.and_eq_true, beq_iff_eq] at hp
        exact hp.1
      have : r.userId = u.id := hall r hrmem hrtok
      simp [this] at hrid
    simp [verify, hfnone]

/-- C3 witness: consuming the valid secret of the sole user succeeds. -/
theorem consumeReset_valid_witness :
    (consumeReset ⟨[⟨1, "u", "e", "old", some "at", some "rt", true⟩],
        [⟨"tk", 1, 5⟩]⟩ "rt" "new").2 = Except.ok () :=
  (consumeReset_valid_spec ⟨[⟨1, "u", "e", "old", some "at", some "rt", true⟩],
      [⟨"tk", 1, 5⟩]⟩ "rt" "new" ⟨1, "u", "e", "old", some "at", some "rt", true⟩
    (by decide) rfl (by decide) (by decide)).1

/-- C8: the invariant `inactive = false → activationToken = null` is
preserved by registration (which creates users inactive), by `activate` and
by password-reset consumption (both of which clear the activation token
whenever they set `inactive = false`). -/
theorem invariant_preservation (db : DB) (username email passwordHash : String)
    (freshId : Nat) (secretBytes : List Nat) (emailOk : Bool)
    (atok rt newHash : String) (hinv : UserInvariant db) :
    UserInvariant (save db username email passwordHash freshId secretBytes emailOk).1
    ∧ UserInvariant (activate db atok).1
    ∧ UserInvariant (updatePassword db rt newHash).1
    ∧ UserInvariant (consumeReset db rt newHash).1 := by
  have hup : UserInvariant (updatePassword db rt newHash).1 := by
    cases hf : findByPasswordResetToken db rt with
    | none =>
      have hstate : (updatePassword db rt newHash).1 = db := by
        simp [updatePassword, hf]
      rw [hstate]
      exact hinv
    | some w =>
      intro v hv
      have husers : (updatePassword db rt newHash).1.users
          = updateFirst (fun x => x.passwordResetToken == some rt)
            (fun x =>
              { x with
                password := newHash
                passwordResetToken := none
                inactive := false
                activationToken := none }) db.users := by
        simp [updatePassword, clearTokens, hf]
      rw [husers] at hv
      exact invariant_updateFirst _ _ _ hinv (fun x _ => rfl) v hv
  refine ⟨?_, ?_, hup, ?_⟩
  · cases emailOk with
    | false => exact hinv
    | true =>
      intro v hv hvin
      rcases List.mem_append.1 hv with h | h
      · exact hinv v h hvin
      · have hveq : v = User.mk freshId username email passwordHash
            (some (randomString secretBytes 16)) none true := by simpa using h
        rw [hveq] at hvin
        simp at hvin
  · cases hf : db.users.find? (fun x => x.activationToken == some atok) with
    | none =>
      have hstate : (activate db atok).1 = db := by simp [activate, hf]
      rw [hstate]
      exact hinv
    | some w =>
      intro v hv
      have husers : (activate db atok).1.users
          = updateFirst (fun x => x.activationToken == some atok)
            (fun x => { x with inactive := false, activationToken := none })
            db.users := by
        simp [activate, hf]
      rw [husers] at hv
      exact invariant_updateFirst _ _ _ hinv (fun x _ => rfl) v hv
  · cases hf : findByPasswordResetToken db rt with
    | none =>
      have hstate : (consumeReset db rt newHash).1 = db := by
        simp [consumeReset, hf]
      rw [hstate]
      exact hinv
    | some w =>
      have hstate : consumeReset db rt newHash = updatePassword db rt newHash := by
        simp [consumeReset, hf]
      rw [hstate]
      exact hup

/-- C8 witness: activating the sole (inactive) user preserves the
invariant. -/
theorem invariant_preservation_witness :
    UserInvariant (activate ⟨[⟨1, "u", "e", "p", some "act", none, true⟩], []⟩ "act").1 :=
  (invariant_preservation ⟨[⟨1, "u", "e", "p", some "act", none, true⟩], []⟩
      "u" "e" "p" 1 (List.replicate 16 0) true "act" "rt" "h" (by decide)).2.1

/-- C9: verifying a token immediately after it is issued — before any
expiry or revocation, with the generated string not colliding with a stored
one — succeeds and returns the issuing user's id. -/
theorem issue_verify_roundtrip (db : DB) (u : User) (tok : String) (now : Int)
    (hfresh : ∀ r ∈ db.tokens, r.token ≠ tok) :
    (verify (createToken db u tok now).1 ((createToken db u tok now).2) now).2
        = Except.ok u.id := by
  have htl : (createToken db u tok now).1.tokens
      = db.tokens ++ (⟨tok, u.id, now⟩ : TokenRow) :: [] := rfl
  have hpred : verifyPred tok now ⟨tok, u.id, now⟩ = true := by
    have hweek : (0 : Int) < ONE_WEEK_IN_MS := by decide
    simp only [verifyPred, Bool.and_eq_true, beq_iff_eq, decide_eq_true_eq]
    exact ⟨by simp, by omega⟩
  have hl₁ : ∀ w ∈ db.tokens, verifyPred tok now w = false := by
    intro w hw
    have hwt : (w.token == tok) = false := by
      simpa using hfresh w hw
    simp [verifyPred, hwt]
  have hfind : ((createToken db u tok now).1.tokens).find? (verifyPred tok now)
      = some ⟨tok, u.id, now⟩ := by
    rw [htl]
    exact find?_append_cons _ _ _ _ hl₁ hpred
  have hret : (createToken db u tok now).2 = tok := rfl
  rw [hret]
  simp [verify, hfind]

/-- C9 witness: a token issued into an empty store verifies at once to the
issuing user's id. -/
theorem issue_verify_roundtrip_witness :
    (verify (createToken ⟨[], []⟩ ⟨3, "u", "e", "p", none, none, false⟩ "tk" 0).1
        ((createToken ⟨[], []⟩ ⟨3, "u", "e", "p", none, none, false⟩ "tk" 0).2) 0).2
      = Except.ok 3 :=
  issue_verify_roundtrip ⟨[], []⟩ ⟨3, "u", "e", "p", none, none, false⟩ "tk" 0
    (by decide)

/-- C10: a second reset request for the same email overwrites the first
secret: afterwards the first secret matches no user and consuming it fails
with the token-not-found failure, while the most recently issued secret is
stored on the user's row and can be consumed. -/
theorem requestReset_overwrite_spec (db : DB) (email : String) (b1 b2 : List Nat)
    (newHash : String) (u : User)
    (hu : findByEmail db email = some u)
    (hne : randomString b2 16 ≠ randomString b1 16)
    (hfresh1 : ∀ v ∈ db.users, v.passwordResetToken ≠ some (randomString b1 16))
    (hfresh2 : ∀ v ∈ db.users, v.passwordResetToken ≠ some (randomString b2 16)) :
    findByPasswordResetToken
        (passwordResetRequest (passwordResetRequest db email b1 true).1 email b2 true).1
        (randomString b1 16) = none
    ∧ (consumeReset
        (passwordResetRequest (passwordResetRequest db email b1 true).1 email b2 true).1
        (randomString b1 16) newHash).2 = Except.error Failure.tokenNotFound
    ∧ (consumeReset
        (passwordResetRequest (passwordResetRequest db email b1 true).1 email b2 true).1
        (randomString b2 16) newHash).2 = Except.ok ()
    ∧ ∃ v ∈ (passwordResetRequest (passwordResetRequest db email b1 true).1
          email b2 true).1.users,
        v.id = u.id ∧ v.passwordResetToken = some (randomString b2 16) := by
  have hu' : db.users.find? (fun v => v.email == email) = some u := hu
  have hpu0 := List.find?_some hu'
  have hpu : (u.email == email) = true := hpu0
  obtain ⟨l₁, l₂, hsplit, hl₁⟩ := find?_decomp _ _ _ hu'
  have hupd1 : updateFirst (fun v => v.email == email)
      (fun v => { v with passwordResetToken := some (randomString b1 16) }) db.users
      = l₁ ++ ({ u with passwordResetToken := some (randomString b1 16) }) :: l₂ := by
    rw [hsplit]
    exact updateFirst_append_cons _ _ _ _ _ hl₁ hpu
  have husers1 : (passwordResetRequest db email b1 true).1.users
      = l₁ ++ ({ u with passwordResetToken := some (randomString b1 16) }) :: l₂ := by
    rw [passwordResetRequest_users_of_found db email b1 u hu, hupd1]
  have hpu1 : (({ u with passwordResetToken := some (randomString b1 16) } : User).email
      == email) = true := hpu
  have hfe1 : findByEmail (passwordResetRequest db email b1 true).1 email
      = some { u with passwordResetToken := some (randomString b1 16) } := by
    have h : ((passwordResetRequest db email b1 true).1.users).find?
        (fun v => v.email == email)
        = some { u with passwordResetToken := some (randomString b1 16) } := by
      rw [husers1]
      exact find?_append_cons _ _ _ _ hl₁ hpu1
    exact h
  have husers2 : (passwordResetRequest (passwordResetRequest db email b1 true).1
      email b2 true).1.users
      = l₁ ++ ({ u with passwordResetToken := some (randomString b2 16) }) :: l₂ := by
    rw [passwordResetRequest_users_of_found _ email b2 _ hfe1, husers1]
    exact updateFirst_append_cons _ _ _ _ _ hl₁ hpu1
  have hnone1 : ((passwordResetRequest (passwordResetRequest db email b1 true).1
      email b2 true).1.users).find?
      (fun v => v.passwordResetToken == some (randomString b1 16)) = none := by
    rw [husers2, List.find?_eq_none]
    intro w hw
    simp only [beq_iff_eq]
    rcases List.mem_append.1 hw with hw | hw
    · exact hfresh1 w (by rw [hsplit]; exact List.mem_append_left _ hw)
    · rcases List.mem_cons.1 hw with rfl | hw
      · intro hcontra
        exact hne (Option.some.inj hcontra)
      · exact hfresh1 w
          (by rw [hsplit]; exact List.mem_append_right _ (List.mem_cons_of_mem _ hw))
  have hnone1' : findByPasswordResetToken
      (passwordResetRequest (passwordResetRequest db email b1 true).1 email b2 true).1
      (randomString b1 16) = none := hnone1
  have hl₁s2 : ∀ w ∈ l₁, (w.passwordResetToken == some (randomString b2 16)) = false := by
    intro w hw
    exact beq_false_of_ne (hfresh2 w (by rw [hsplit]; exact List.mem_append_left _ hw))
  have hpu2 : (({ u with passwordResetToken := some (randomString b2 16) } : User).passwordResetToken
      == some (randomString b2 16)) = true := by simp
  have hfs2 : ((passwordResetRequest (passwordResetRequest db email b1 true).1
      email b2 true).1.users).find?
      (fun v => v.passwordResetToken == some (randomString b2 16))
      = some { u with passwordResetToken := some (randomString b2 16) } := by
    rw [husers2]
    exact find?_append_cons _ _ _ _ hl₁s2 hpu2
  have hfs2' : findByPasswordResetToken
      (passwordResetRequest (passwordResetRequest db email b1 true).1 email b2 true).1
      (randomString b2 16)
      = some { u with passwordResetToken := some (randomString b2 16) } := hfs2
  refine ⟨hnone1', by simp [consumeReset, hnone1'], ?_, ?_⟩
  · simp [consumeReset, updatePassword, hfs2']
  · refine ⟨{ u with passwordResetToken := some (randomString b2 16) }, ?_, rfl, rfl⟩
    rw [husers2]
    exact List.mem_append_right _ (List.mem_cons_self _ _)

/-- C10 witness: after two reset requests for the sole user's email, the
secret from the first request no longer matches any user. -/
theorem requestReset_overwrite_witness :
    findByPasswordResetToken
        (passwordResetRequest (passwordResetRequest
            ⟨[⟨1, "u", "e@m", "p", none, none, false⟩], []⟩ "e@m"
            (List.replicate 16 0) true).1 "e@m" (List.replicate 16 255) true).1
        (randomString (List.replicate 16 0) 16) = none :=
  (requestReset_overwrite_spec ⟨[⟨1, "u", "e@m", "p", none, none, false⟩], []⟩ "e@m"
      (List.replicate 16 0) (List.replicate 16 255) "h"
      ⟨1, "u", "e@m", "p", none, none, false⟩
      (by decide) (by decide) (by decide) (by decide)).1

end NodeTdd
